import Mathlib

/-!
Verification of the multifox instance lifecycle and configuration
reconciliation engine.

The definitions below are a shallow embedding of the Python sources:

* `src/multifox/model.py` — the data model (`Instance`, `Profile`,
  `ProfileConfiguration`, `ProfileInstantiation`);
* `src/multifox/__init__.py` — `find_best_instance_for_start`,
  `create_instance`, `instance_in_use`, `install_extensions`,
  `update_userjs`, `extension_id_from_file_path`;
* `src/multifox/cli.py` — the `launch` command's claim/release
  protocol around the browser invocation.

Operating-system effects are made explicit parameters: the process
liveness probe `check_pid` (built on `os.kill(pid, 0)`) becomes an
oracle `alive : Nat → Bool`; the UUID generator of `create_instance`
becomes a parameter `freshId`; the wall clock becomes `now`; the
filesystem contents touched by reconciliation become explicit record
fields.  Directory listings are lists in enumeration order, since
`os.listdir` returns them in an unspecified order that the code
iterates over directly.
-/

namespace Multifox

/-- `ProfileInstantiation` from `model.py`: instantiation policy of a
profile (`single` or `multiple`). -/
inductive ProfileInstantiation
  | single
  | multiple
  deriving DecidableEq

/-- `Instance` from `model.py`: persisted metadata of one profile
instance.  `creationTime` abstracts the `datetime` timestamp as a
natural number (only its ordering matters to the code). -/
structure Instance where
  id : String
  profileId : String
  creationTime : Nat
  usagePid : Option Nat
  installedExtensions : List String
  deriving DecidableEq

/-- `ProfileConfiguration` from `model.py`: the parts relevant to the
reconciler.  `extensions` is the optional ordered list of extension
file paths; `userjs` the optional preference-overrides source path.
The browser `type` only selects directory layouts and executables and
is not modelled. -/
structure ProfileConfiguration where
  extensions : Option (List String)
  userjs : Option String
  deriving DecidableEq

/-- `Profile` from `model.py`. -/
structure Profile where
  id : String
  name : String
  instantiation : ProfileInstantiation
  configuration : ProfileConfiguration
  deriving DecidableEq

/-- Errors raised by the embedded operations, mirroring
`error.BrokenProfileException` and the Python built-in exceptions the
code can raise (`FileNotFoundError` from `open`, `KeyError` from
`del dict[key]`). -/
inductive MultifoxError
  | brokenProfile (msg : String)
  | fileNotFound (path : String)
  | keyError (key : String)
  deriving DecidableEq

/-- `instance_in_use` from `__init__.py` (lines 485–492): an instance
is in use iff it records a `usage_pid` and `check_pid` confirms a
process with that pid exists.  The probe is the oracle `alive`. -/
def instance_in_use (alive : Nat → Bool) (inst : Instance) : Bool :=
  match inst.usagePid with
  | none => false
  | some pid => alive pid

/-- `create_instance` from `__init__.py` (lines 101–122), restricted
to the instance record it builds: a fresh UUID id (parameter
`freshId`), the owning profile's id, `creation_time = now`, and the
`model.Instance` defaults `usage_pid = None`,
`installed_extensions = []`.  The record is persisted immediately;
the browser warm-up invocation is an external effect. -/
def create_instance (freshId : String) (now : Nat) (profile : Profile) : Instance :=
  { id := freshId
    profileId := profile.id
    creationTime := now
    usagePid := none
    installedExtensions := [] }

/-- The update of `oldest_free_instance` in the loop body of
`find_best_instance_for_start` (lines 88–92): a free instance becomes
the new best when no best exists yet or its creation time is strictly
smaller. -/
def better (inst : Instance) (best : Option Instance) : Option Instance :=
  match best with
  | none => some inst
  | some b =>
    if inst.creationTime < b.creationTime then some inst else some b

/-- The `for instance_dir in instance_dirs` loop of
`find_best_instance_for_start` (lines 84–92): fold over the loaded
instances in directory-enumeration order, keeping the current
`oldest_free_instance` and skipping instances that are in use. -/
def find_best_loop (alive : Nat → Bool) :
    List Instance → Option Instance → Option Instance
  | [], best => best
  | inst :: rest, best =>
    if instance_in_use alive inst then
      find_best_loop alive rest best
    else
      find_best_loop alive rest (better inst best)

/-- `find_best_instance_for_start` from `__init__.py` (lines 53–98).
`instances` is the list of loaded instance records in the order
`os.listdir` enumerates their directories.  Single mode: one existing
instance is returned as is, zero triggers creation, any other count
raises `BrokenProfileException`.  Multiple mode: the loop selects the
oldest not-in-use instance, and a new instance is created when none
is free. -/
def find_best_instance_for_start (alive : Nat → Bool) (freshId : String)
    (now : Nat) (profile : Profile) (instances : List Instance) :
    Except MultifoxError Instance :=
  match profile.instantiation with
  | ProfileInstantiation.single =>
    match instances with
    | [inst] => Except.ok inst
    | [] => Except.ok (create_instance freshId now profile)
    | _ =>
      Except.error (MultifoxError.brokenProfile
        "single instantiation mode but number of existing instances is not 0 or 1")
  | ProfileInstantiation.multiple =>
    match find_best_loop alive instances none with
    | none => Except.ok (create_instance freshId now profile)
    | some inst => Except.ok inst

/-- `os.path.basename` on POSIX: the part of the path after the last
slash, computed by scanning the characters and restarting at every
slash. -/
def basename (path : String) : String :=
  String.mk
    (path.data.foldl (fun acc c => if c = '/' then [] else acc ++ [c]) [])

/-- Python's `str.rstrip(chars)`: remove from the end of the string
every character contained in the set `chars`, not the suffix string
`chars`. -/
def pyRstrip (s : String) (chars : List Char) : String :=
  String.mk ((s.data.reverse.dropWhile (fun c => c ∈ chars)).reverse)

/-- `extension_id_from_file_path` from `__init__.py` (lines 303–310):
the extension id of a file named `<extension-id>.xpi`, computed as
`os.path.basename(path).rstrip(".xpi")`. -/
def extension_id_from_file_path (extension_file_path : String) : String :=
  pyRstrip (basename extension_file_path) ['.', 'x', 'p', 'i']

/-- The metadata value `install_extensions` writes for a newly
installed extension into `extension-preferences.json` (lines
225–228). -/
structure ExtMeta where
  permissions : List String
  origins : List String
  deriving DecidableEq

def defaultExtMeta : ExtMeta :=
  { permissions := ["internal:privateBrowsingAllowed"], origins := [] }

/-- Lookup in an association list modelling a Python dictionary. -/
def lookupKey (prefs : List (String × ExtMeta)) (k : String) :
    Option ExtMeta :=
  match prefs with
  | [] => none
  | kv :: rest => if kv.1 = k then some kv.2 else lookupKey rest k

/-- The filesystem state `install_extensions` touches inside the
instance's browser profile directory: the set of extension file
basenames in the `extensions` directory, and the contents of
`extension-preferences.json` as an association list keyed by
extension id (`none` when the file is absent). -/
structure ExtState where
  extFiles : List String
  extPrefs : Option (List (String × ExtMeta))
  deriving DecidableEq

/-- The result of a successful `install_extensions` run: the updated
filesystem state, the new `instance.installed_extensions` list, and
whether the helper browser invocation (guarded by
`len(to_remove) + len(to_install) > 0`, line 243) was triggered. -/
structure InstallResult where
  state : ExtState
  installedExtensions : List String
  helperInvoked : Bool
  deriving DecidableEq

/-- The diff computation of `install_extensions` (lines 174–187):
start from `to_remove = set(instance.installed_extensions)` and an
empty `to_install`; for each declared extension path, either keep the
already-installed basename (removing it from `to_remove`) or add the
path to `to_install`.  Python sets are modelled as duplicate-free
lists; the starting set keeps first occurrences (`dedup` keeps the
first copy), and `to_install` records insertion order. -/
def diffStep (acc : List String × List String) (extensionFilePath : String) :
    List String × List String :=
  let extensionFileName := basename extensionFilePath
  if extensionFileName ∈ acc.1 then
    (acc.1.erase extensionFileName, acc.2)
  else
    (acc.1, if extensionFilePath ∈ acc.2 then acc.2
      else acc.2 ++ [extensionFilePath])

def computeDiff (installed : List String) (declared : Option (List String)) :
    List String × List String :=
  match declared with
  | none => (installed.dedup, [])
  | some exts => exts.foldl diffStep (installed.dedup, [])

/-- One iteration of the removal loop of `install_extensions` (lines
198–209): delete the extension file if it is present (already-missing
files are tolerated), then `del` its id from the metadata dictionary,
which raises `KeyError` when the id is absent. -/
def removeOne (st : List String × List (String × ExtMeta))
    (extensionFileName : String) :
    Except MultifoxError (List String × List (String × ExtMeta)) :=
  let extensionId := extension_id_from_file_path extensionFileName
  let files :=
    if extensionFileName ∈ st.1 then st.1.erase extensionFileName else st.1
  if (lookupKey st.2 extensionId).isSome then
    Except.ok (files, st.2.filter (fun kv => kv.1 ≠ extensionId))
  else
    Except.error (MultifoxError.keyError extensionId)

/-- Python dictionary assignment `d[k] = v`: replace the value of an
existing key in place, otherwise append the new binding. -/
def dictInsert (prefs : List (String × ExtMeta)) (k : String) (v : ExtMeta) :
    List (String × ExtMeta) :=
  if (lookupKey prefs k).isSome then
    prefs.map (fun kv => if kv.1 = k then (k, v) else kv)
  else
    prefs ++ [(k, v)]

/-- One iteration of the install loop of `install_extensions` (lines
212–228): copy the extension file into the extensions directory
(modelled as presence of its basename) and add the baseline metadata
entry under its id. -/
def installOne (st : List String × List (String × ExtMeta))
    (relExtensionFilePath : String) :
    List String × List (String × ExtMeta) :=
  let extensionFileName := basename relExtensionFilePath
  let extensionId := extension_id_from_file_path extensionFileName
  ((if extensionFileName ∈ st.1 then st.1 else st.1 ++ [extensionFileName]),
    dictInsert st.2 extensionId defaultExtMeta)

/-- `install_extensions` from `__init__.py` (lines 161–300), on the
state it reads and writes.  The diff is computed first; then
`extension-preferences.json` is opened unconditionally, raising
`FileNotFoundError` when absent; removals are applied (a missing
metadata key raises `KeyError`), then installs; the metadata file is
written back once; `instance.installed_extensions` is set to the
declared basenames (empty when no extensions are declared) and the
instance record persisted; finally the helper browser runs iff the
combined change count is nonzero. -/
def install_extensions (configExtensions : Option (List String))
    (installedExtensions : List String) (st : ExtState) :
    Except MultifoxError InstallResult :=
  let diff := computeDiff installedExtensions configExtensions
  match st.extPrefs with
  | none => Except.error (MultifoxError.fileNotFound "extension-preferences.json")
  | some extensionPreferences =>
    match diff.1.foldlM removeOne (st.extFiles, extensionPreferences) with
    | Except.error e => Except.error e
    | Except.ok afterRemove =>
      let afterInstall := diff.2.foldl installOne afterRemove
      Except.ok
        { state := { extFiles := afterInstall.1, extPrefs := some afterInstall.2 }
          installedExtensions :=
            match configExtensions with
            | some exts => exts.map basename
            | none => []
          helperInvoked := decide (0 < diff.1.length + diff.2.length) }

/-- The fixed preference line appended by `update_userjs` (line 158)
to enable unattended extension installation. -/
def autoDisableScopesPref : String :=
  "user_pref(\"extensions.autoDisableScopes\", 14);"

/-- `update_userjs` from `__init__.py` (lines 136–158), on the
contents of the instance's `user.js` file (a list of lines, `none`
when the file is absent).  `configUserjs` is the content of the
profile's declared preferences file (`none` when `config.userjs` is
`None`).  When no preferences file is declared, an existing `user.js`
is removed; otherwise the declared file's content overwrites it.
Afterwards, when the declared extension list is nonempty, the
unattended-installation preference line is appended in `"a"` (append)
mode — which creates the file when it is absent. -/
def update_userjs (configUserjs : Option (List String))
    (configExtensions : Option (List String))
    (userjsInInstance : Option (List String)) : Option (List String) :=
  let afterSync :=
    match configUserjs with
    | none => none
    | some srcContent => some srcContent
  if (match configExtensions with
      | some exts => decide (0 < exts.length)
      | none => false) then
    some ((afterSync.getD []) ++ [autoDisableScopesPref])
  else
    afterSync

/-- The `launch` command from `cli.py` (lines 34–60), from the point
where the selected instance is checked and claimed.  `applyStep`
models `apply_config_to_instance`: it returns the new
`installed_extensions` list together with an optional error
(reconciliation failure); `browserStep` models `launch_browser`
returning an optional error (launch failure or nonzero exit).  The
returned list is the sequence of `write_instance` calls: the claim
write (`usage_pid := os.getpid()`), then — via `try`/`finally` — the
release write (`usage_pid := None`) on every exit path. -/
def launch (alive : Nat → Bool) (pid : Nat) (inst : Instance)
    (applyStep : Instance → List String × Option String)
    (browserStep : Instance → Option String) :
    Except String Unit × List Instance :=
  if instance_in_use alive inst then
    (Except.error "Instance is currently in use", [])
  else
    let claimed := { inst with usagePid := some pid }
    let applied := applyStep claimed
    let mutated := { claimed with installedExtensions := applied.1 }
    match applied.2 with
    | some e => (Except.error e, [claimed, { mutated with usagePid := none }])
    | none =>
      match browserStep mutated with
      | some e =>
        (Except.error e, [claimed, { mutated with usagePid := none }])
      | none =>
        (Except.ok (), [claimed, { mutated with usagePid := none }])

/-! ### Lemmas about the selection loop -/

theorem better_ne_none (inst : Instance) (b : Option Instance) :
    better inst b ≠ none := by
  cases b with
  | none => simp [better]
  | some bv =>
    simp only [better]
    split <;> simp

theorem better_cases (inst i : Instance) (b : Option Instance)
    (h : better inst b = some i) : i = inst ∨ b = some i := by
  cases b with
  | none =>
    simp only [better] at h
    exact Or.inl (Option.some.inj h).symm
  | some bv =>
    simp only [better] at h
    split at h
    · exact Or.inl (Option.some.inj h).symm
    · exact Or.inr (congrArg some (Option.some.inj h))

theorem better_min (inst v : Instance) (b : Option Instance)
    (h : better inst b = some v) :
    v.creationTime ≤ inst.creationTime ∧
      ∀ bv, b = some bv → v.creationTime ≤ bv.creationTime := by
  cases b with
  | none =>
    simp only [better] at h
    cases Option.some.inj h
    exact ⟨Nat.le_refl _, by simp⟩
  | some bv =>
    simp only [better] at h
    by_cases hlt : inst.creationTime < bv.creationTime
    · rw [if_pos hlt] at h
      cases Option.some.inj h
      refine ⟨Nat.le_refl _, ?_⟩
      intro bw hbw
      cases Option.some.inj hbw
      omega
    · rw [if_neg hlt] at h
      cases Option.some.inj h
      refine ⟨by omega, ?_⟩
      intro bw hbw
      cases Option.some.inj hbw
      exact Nat.le_refl _

theorem find_best_loop_none_iff (alive : Nat → Bool) (l : List Instance)
    (b : Option Instance) :
    find_best_loop alive l b = none ↔
      (b = none ∧ ∀ j ∈ l, instance_in_use alive j = true) := by
  induction l generalizing b with
  | nil => simp [find_best_loop]
  | cons x xs ih =>
    by_cases hx : instance_in_use alive x = true
    · rw [find_best_loop, if_pos hx, ih]
      constructor
      · rintro ⟨hb, hall⟩
        refine ⟨hb, fun j hj => ?_⟩
        rcases List.mem_cons.mp hj with rfl | hm
        · exact hx
        · exact hall j hm
      · rintro ⟨hb, hall⟩
        exact ⟨hb, fun j hj => hall j (List.mem_cons_of_mem x hj)⟩
    · rw [find_best_loop, if_neg hx]
      constructor
      · intro h
        exact absurd ((ih (better x b)).mp h).1 (better_ne_none x b)
      · rintro ⟨_, hall⟩
        exact absurd (hall x (List.mem_cons_self x xs)) hx

theorem find_best_loop_mem (alive : Nat → Bool) (l : List Instance)
    (b : Option Instance) (i : Instance)
    (h : find_best_loop alive l b = some i) :
    (i ∈ l ∧ instance_in_use alive i = false) ∨ b = some i := by
  induction l generalizing b with
  | nil => exact Or.inr h
  | cons x xs ih =>
    by_cases hx : instance_in_use alive x = true
    · rw [find_best_loop, if_pos hx] at h
      rcases ih b h with ⟨hm, hf⟩ | hb
      · exact Or.inl ⟨List.mem_cons_of_mem x hm, hf⟩
      · exact Or.inr hb
    · rw [find_best_loop, if_neg hx] at h
      rcases ih (better x b) h with ⟨hm, hf⟩ | hb
      · exact Or.inl ⟨List.mem_cons_of_mem x hm, hf⟩
      · rcases better_cases x i b hb with rfl | hbb
        · exact Or.inl ⟨List.mem_cons_self i xs, by simpa using hx⟩
        · exact Or.inr hbb

theorem find_best_loop_min (alive : Nat → Bool) (l : List Instance)
    (b : Option Instance) (i : Instance)
    (h : find_best_loop alive l b = some i) :
    (∀ j ∈ l, instance_in_use alive j = false → i.creationTime ≤ j.creationTime) ∧
      (∀ bv, b = some bv → i.creationTime ≤ bv.creationTime) := by
  induction l generalizing b with
  | nil =>
    refine ⟨by simp, ?_⟩
    intro bv hbv
    rw [find_best_loop] at h
    rw [hbv] at h
    cases Option.some.inj h
    exact Nat.le_refl _
  | cons x xs ih =>
    by_cases hx : instance_in_use alive x = true
    · rw [find_best_loop, if_pos hx] at h
      obtain ⟨hall, hb⟩ := ih b h
      refine ⟨?_, hb⟩
      intro j hj hjf
      rcases List.mem_cons.mp hj with rfl | hm
      · exact absurd hx (by simp [hjf])
      · exact hall j hm hjf
    · rw [find_best_loop, if_neg hx] at h
      obtain ⟨hall, hb⟩ := ih (better x b) h
      obtain ⟨v, hv⟩ := Option.ne_none_iff_exists'.mp (better_ne_none x b)
      have hiv := hb v hv
      obtain ⟨hvx, hvb⟩ := better_min x v b hv
      constructor
      · intro j hj hjf
        rcases List.mem_cons.mp hj with rfl | hm
        · omega
        · exact hall j hm hjf
      · intro bw hbw
        have := hvb bw hbw
        omega

theorem find_best_loop_append (alive : Nat → Bool) (l1 l2 : List Instance)
    (b : Option Instance) :
    find_best_loop alive (l1 ++ l2) b =
      find_best_loop alive l2 (find_best_loop alive l1 b) := by
  induction l1 generalizing b with
  | nil => simp [find_best_loop]
  | cons x xs ih =>
    rw [List.cons_append, find_best_loop, find_best_loop]
    by_cases hx : instance_in_use alive x = true
    · rw [if_pos hx, if_pos hx, ih]
    · rw [if_neg hx, if_neg hx, ih]

theorem find_best_loop_keep (alive : Nat → Bool) (l : List Instance)
    (i : Instance)
    (hmin : ∀ j ∈ l, instance_in_use alive j = false →
      i.creationTime ≤ j.creationTime) :
    find_best_loop alive l (some i) = some i := by
  induction l with
  | nil => rfl
  | cons x xs ih =>
    by_cases hx : instance_in_use alive x = true
    · rw [find_best_loop, if_pos hx]
      exact ih fun j hj => hmin j (List.mem_cons_of_mem x hj)
    · rw [find_best_loop, if_neg hx]
      have hle := hmin x (List.mem_cons_self x xs) (by simpa using hx)
      have hbx : better x (some i) = some i := by
        simp only [better]
        rw [if_neg (by omega)]
      rw [hbx]
      exact ih fun j hj => hmin j (List.mem_cons_of_mem x hj)

theorem find_best_multiple_unfold (alive : Nat → Bool) (freshId : String)
    (now : Nat) (profile : Profile) (instances : List Instance)
    (hm : profile.instantiation = ProfileInstantiation.multiple) :
    find_best_instance_for_start alive freshId now profile instances =
      match find_best_loop alive instances none with
      | none => Except.ok (create_instance freshId now profile)
      | some inst => Except.ok inst := by
  unfold find_best_instance_for_start
  rw [hm]

/-! ### Claim theorems about instance selection -/

/-- C1: for a `multiple`-instantiation profile,
`find_best_instance_for_start` returns a not-in-use existing instance
whose creation time is minimal among the not-in-use instances; when
every existing instance is in use (including the zero-instance case),
it returns a freshly created instance whose new UUID id is distinct
from every existing instance id. -/
theorem find_best_multiple_correct (alive : Nat → Bool) (freshId : String)
    (now : Nat) (profile : Profile) (instances : List Instance)
    (hm : profile.instantiation = ProfileInstantiation.multiple)
    (hfresh : freshId ∉ instances.map Instance.id) :
    ∃ inst,
      find_best_instance_for_start alive freshId now profile instances =
        Except.ok inst ∧
      ((inst ∈ instances ∧ instance_in_use alive inst = false ∧
          ∀ j ∈ instances, instance_in_use alive j = false →
            inst.creationTime ≤ j.creationTime) ∨
        ((∀ j ∈ instances, instance_in_use alive j = true) ∧
          inst = create_instance freshId now profile ∧
          inst.id ∉ instances.map Instance.id)) := by
  rw [find_best_multiple_unfold alive freshId now profile instances hm]
  cases hloop : find_best_loop alive instances none with
  | none =>
    refine ⟨_, rfl, Or.inr ⟨?_, rfl, ?_⟩⟩
    · exact ((find_best_loop_none_iff alive instances none).mp hloop).2
    · exact hfresh
  | some i =>
    rcases find_best_loop_mem alive instances none i hloop with ⟨hmem, hf⟩ | hb
    · obtain ⟨hall, _⟩ := find_best_loop_min alive instances none i hloop
      exact ⟨i, rfl, Or.inl ⟨hmem, hf, hall⟩⟩
    · exact absurd hb (by simp)

/-- Witness for C1: two concrete instances, the older one in use by a
live pid, the younger one free: the younger one is selected and is
minimal among the free ones. -/
theorem find_best_multiple_correct_witness :
    ∃ inst,
      find_best_instance_for_start (fun p => p == 7) "fresh" 9
          ⟨"p1", "work", ProfileInstantiation.multiple, ⟨none, none⟩⟩
          [⟨"a", "p1", 1, some 7, []⟩, ⟨"b", "p1", 2, none, []⟩] =
        Except.ok inst ∧
      ((inst ∈ [⟨"a", "p1", 1, some 7, []⟩, (⟨"b", "p1", 2, none, []⟩ : Instance)] ∧
          instance_in_use (fun p => p == 7) inst = false ∧
          ∀ j ∈ [⟨"a", "p1", 1, some 7, []⟩, (⟨"b", "p1", 2, none, []⟩ : Instance)],
            instance_in_use (fun p => p == 7) j = false →
              inst.creationTime ≤ j.creationTime) ∨
        ((∀ j ∈ [⟨"a", "p1", 1, some 7, []⟩, (⟨"b", "p1", 2, none, []⟩ : Instance)],
            instance_in_use (fun p => p == 7) j = true) ∧
          inst = create_instance "fresh" 9
            ⟨"p1", "work", ProfileInstantiation.multiple, ⟨none, none⟩⟩ ∧
          inst.id ∉ List.map Instance.id
            [⟨"a", "p1", 1, some 7, []⟩, ⟨"b", "p1", 2, none, []⟩])) :=
  find_best_multiple_correct (fun p => p == 7) "fresh" 9
    ⟨"p1", "work", ProfileInstantiation.multiple, ⟨none, none⟩⟩
    [⟨"a", "p1", 1, some 7, []⟩, ⟨"b", "p1", 2, none, []⟩]
    rfl (by decide)

/-- C2: for a `single`-instantiation profile,
`find_best_instance_for_start` creates a new instance when no
instance directory exists, returns the sole existing instance
whatever the liveness oracle says (it is never consulted, so even an
instance whose `usage_pid` is live is returned), and fails with
`BrokenProfileException` when two or more exist; consequently a
second call after a claim/release cycle returns an instance with the
same id as the first. -/
theorem find_best_single_correct (freshId : String) (now : Nat)
    (profile : Profile)
    (hm : profile.instantiation = ProfileInstantiation.single) :
    (∀ alive,
      find_best_instance_for_start alive freshId now profile [] =
        Except.ok (create_instance freshId now profile)) ∧
    (∀ alive inst,
      find_best_instance_for_start alive freshId now profile [inst] =
        Except.ok inst) ∧
    (∀ alive i j rest, ∃ msg,
      find_best_instance_for_start alive freshId now profile (i :: j :: rest) =
        Except.error (MultifoxError.brokenProfile msg)) ∧
    (∀ alive₁ alive₂ pid freshId₂ now₂,
      (find_best_instance_for_start alive₁ freshId now profile []).map
          Instance.id =
        Except.ok freshId ∧
      (find_best_instance_for_start alive₂ freshId₂ now₂ profile
          [{ { create_instance freshId now profile with
                usagePid := some pid } with
              usagePid := none }]).map Instance.id =
        Except.ok freshId) := by
  refine ⟨?_, ?_, ?_, ?_⟩
  · intro alive
    unfold find_best_instance_for_start
    rw [hm]
  · intro alive inst
    unfold find_best_instance_for_start
    rw [hm]
  · intro alive i j rest
    refine ⟨"single instantiation mode but number of existing instances is not 0 or 1", ?_⟩
    unfold find_best_instance_for_start
    rw [hm]
  · intro alive₁ alive₂ pid freshId₂ now₂
    constructor
    · unfold find_best_instance_for_start
      rw [hm]
      rfl
    · unfold find_best_instance_for_start
      rw [hm]
      rfl

/-- Witness for C2 at a concrete single-instantiation profile, with a
liveness oracle that reports every pid alive (so the sole returned
instance has a live `usage_pid` and is still returned). -/
theorem find_best_single_correct_witness :
    find_best_instance_for_start (fun _ => true) "u1" 3
        ⟨"p2", "mail", ProfileInstantiation.single, ⟨none, none⟩⟩
        [⟨"only", "p2", 0, some 5, []⟩] =
      Except.ok ⟨"only", "p2", 0, some 5, []⟩ ∧
    (find_best_instance_for_start (fun _ => true) "u2" 4
        ⟨"p2", "mail", ProfileInstantiation.single, ⟨none, none⟩⟩
        [{ { create_instance "u1" 3
              ⟨"p2", "mail", ProfileInstantiation.single, ⟨none, none⟩⟩ with
            usagePid := some 11 } with
          usagePid := none }]).map Instance.id = Except.ok "u1" :=
  ⟨(find_best_single_correct "u1" 3
      ⟨"p2", "mail", ProfileInstantiation.single, ⟨none, none⟩⟩ rfl).2.1
      (fun _ => true) ⟨"only", "p2", 0, some 5, []⟩,
    ((find_best_single_correct "u1" 3
      ⟨"p2", "mail", ProfileInstantiation.single, ⟨none, none⟩⟩ rfl).2.2.2
      (fun _ => true) (fun _ => true) 11 "u2" 4).2⟩

/-- C3: `instance_in_use` reports in-use exactly when a `usage_pid`
is recorded and the liveness probe confirms a process with that pid;
an instance with a stale recorded pid (probe says not alive) is
treated as free and returned by `find_best_instance_for_start` in
multiple mode rather than skipped. -/
theorem instance_in_use_correct (alive : Nat → Bool) :
    (∀ inst, instance_in_use alive inst = true ↔
      ∃ pid, inst.usagePid = some pid ∧ alive pid = true) ∧
    (∀ profile freshId now inst pid,
      profile.instantiation = ProfileInstantiation.multiple →
      inst.usagePid = some pid → alive pid = false →
      instance_in_use alive inst = false ∧
      find_best_instance_for_start alive freshId now profile [inst] =
        Except.ok inst) := by
  constructor
  · intro inst
    cases hp : inst.usagePid with
    | none => simp [instance_in_use, hp]
    | some pid => simp [instance_in_use, hp]
  · intro profile freshId now inst pid hm hp ha
    have hfree : instance_in_use alive inst = false := by
      simp [instance_in_use, hp, ha]
    refine ⟨hfree, ?_⟩
    rw [find_best_multiple_unfold alive freshId now profile [inst] hm]
    rw [show find_best_loop alive [inst] none = some inst by
      rw [find_best_loop, if_neg (by simp [hfree]), better, find_best_loop]]

/-- Witness for C3: a stale instance whose recorded pid 7 is reported
dead is classified free and selected. -/
theorem instance_in_use_correct_witness :
    instance_in_use (fun _ => false) ⟨"a", "p1", 1, some 7, []⟩ = false ∧
    find_best_instance_for_start (fun _ => false) "fresh" 9
        ⟨"p1", "work", ProfileInstantiation.multiple, ⟨none, none⟩⟩
        [⟨"a", "p1", 1, some 7, []⟩] =
      Except.ok ⟨"a", "p1", 1, some 7, []⟩ :=
  (instance_in_use_correct (fun _ => false)).2
    ⟨"p1", "work", ProfileInstantiation.multiple, ⟨none, none⟩⟩
    "fresh" 9 ⟨"a", "p1", 1, some 7, []⟩ 7 rfl rfl rfl

/-- Counterexample for C9: two free instances with equal creation
times; enumerating the instance directories in the two possible
orders makes `find_best_instance_for_start` return two different
instances, so selection under a creation-time tie is not independent
of the enumeration order. -/
theorem tie_break_not_order_independent :
    (find_best_instance_for_start (fun _ => false) "fresh" 9
        ⟨"p1", "work", ProfileInstantiation.multiple, ⟨none, none⟩⟩
        [⟨"a", "p1", 5, none, []⟩, ⟨"b", "p1", 5, none, []⟩]).toOption.map
        Instance.id = some "a" ∧
    (find_best_instance_for_start (fun _ => false) "fresh" 9
        ⟨"p1", "work", ProfileInstantiation.multiple, ⟨none, none⟩⟩
        [⟨"b", "p1", 5, none, []⟩, ⟨"a", "p1", 5, none, []⟩]).toOption.map
        Instance.id = some "b" ∧
    "a" ≠ "b" := by
  decide

/-- C9 amended: in multiple mode the selected instance is the first
free instance in directory-enumeration order among those with the
minimal creation time: every free instance listed before it is
strictly younger is false — strictly older is required — and every
free instance listed after it is no older.  Ties are therefore broken
by enumeration position, not by id. -/
theorem find_best_multiple_first_minimal (alive : Nat → Bool)
    (freshId : String) (now : Nat) (profile : Profile)
    (pre post : List Instance) (i : Instance)
    (hm : profile.instantiation = ProfileInstantiation.multiple)
    (hfree : instance_in_use alive i = false)
    (hpre : ∀ j ∈ pre, instance_in_use alive j = false →
      i.creationTime < j.creationTime)
    (hpost : ∀ j ∈ post, instance_in_use alive j = false →
      i.creationTime ≤ j.creationTime) :
    find_best_instance_for_start alive freshId now profile
      (pre ++ i :: post) = Except.ok i := by
  rw [find_best_multiple_unfold alive freshId now profile (pre ++ i :: post) hm]
  rw [find_best_loop_append]
  cases hb : find_best_loop alive pre none with
  | none =>
    rw [find_best_loop, if_neg (by simp [hfree])]
    rw [show better i none = some i from rfl]
    rw [find_best_loop_keep alive post i hpost]
  | some bv =>
    rcases find_best_loop_mem alive pre none bv hb with ⟨hmem, hf⟩ | habs
    · have hlt := hpre bv hmem hf
      rw [find_best_loop, if_neg (by simp [hfree])]
      have hbetter : better i (some bv) = some i := by
        simp only [better]
        rw [if_pos hlt]
      rw [hbetter, find_best_loop_keep alive post i hpost]
    · exact absurd habs (by simp)

/-! ### Claim theorems about extension-id derivation and the
metadata-file precondition -/

/-- C7 fails on the code: `extension_id_from_file_path` uses Python's
`str.rstrip(".xpi")`, which strips the trailing characters drawn from
the set of characters of the argument rather than the literal
suffix.  For the extension file basename "foox.xpi" — extension id
"foox", ending in the character 'x' — the code returns "foo" instead
of the documented "<extension-id>" value "foox". -/
theorem extension_id_overstrips :
    extension_id_from_file_path "foox.xpi" = "foo" ∧
    extension_id_from_file_path "plain.xpi" = "plain" ∧
    "foo" ≠ "foox" := by
  exact ⟨rfl, rfl, by decide⟩

/-- C10: `install_extensions` opens `extension-preferences.json`
unconditionally, after computing the diff but before inspecting it,
so every run against an instance whose browser profile directory
lacks that file fails with `FileNotFoundError` — even when both the
declared extension list and the installed set are empty and
reconciliation would otherwise be a no-op. -/
theorem install_extensions_requires_prefs_file
    (configExtensions : Option (List String))
    (installed : List String) (st : ExtState)
    (h : st.extPrefs = none) :
    install_extensions configExtensions installed st =
      Except.error (MultifoxError.fileNotFound "extension-preferences.json") := by
  unfold install_extensions
  rw [h]

/-- Witness for C10 at the no-op input: nothing declared, nothing
installed, metadata file absent. -/
theorem install_extensions_requires_prefs_file_witness :
    (⟨[], none⟩ : ExtState).extPrefs = none ∧
    install_extensions none [] ⟨[], none⟩ =
      Except.error (MultifoxError.fileNotFound "extension-preferences.json") :=
  ⟨rfl, install_extensions_requires_prefs_file none [] ⟨[], none⟩ rfl⟩

/-! ### Lemmas about the reconciliation folds -/

theorem lookupKey_filter_ne (prefs : List (String × ExtMeta)) (k eid : String)
    (hk : k ≠ eid) :
    lookupKey (prefs.filter (fun kv => kv.1 ≠ eid)) k = lookupKey prefs k := by
  induction prefs with
  | nil => rfl
  | cons kv rest ih =>
    by_cases hkv : kv.1 = eid
    · rw [List.filter_cons, if_neg (by simp [hkv]), ih, lookupKey,
        if_neg (fun h => hk (by rw [← h, hkv]))]
    · rw [List.filter_cons, if_pos (by simp [hkv]), lookupKey, lookupKey]
      by_cases hkk : kv.1 = k
      · rw [if_pos hkk, if_pos hkk]
      · rw [if_neg hkk, if_neg hkk, ih]

theorem lookupKey_filter_not_mem (prefs : List (String × ExtMeta))
    (ids : List String) (k : String) (hk : k ∈ ids) :
    lookupKey (prefs.filter (fun kv => decide (kv.1 ∉ ids))) k = none := by
  induction prefs with
  | nil => rfl
  | cons kv rest ih =>
    by_cases hkv : kv.1 ∈ ids
    · rw [List.filter_cons, if_neg (by simp [hkv]), ih]
    · rw [List.filter_cons, if_pos (by simp [hkv]), lookupKey,
        if_neg (fun h : kv.1 = k => hkv (h ▸ hk)), ih]

theorem lookupKey_map_replace (rest : List (String × ExtMeta)) (k : String)
    (v : ExtMeta) (k' : String) (hk : k' ≠ k) :
    lookupKey (rest.map (fun kv => if kv.1 = k then (k, v) else kv)) k' =
      lookupKey rest k' := by
  induction rest with
  | nil => rfl
  | cons kw tail ih =>
    rw [List.map_cons]
    by_cases hkw : kw.1 = k
    · rw [if_pos hkw, lookupKey, lookupKey,
        if_neg (fun h => hk h.symm), if_neg (fun h => hk (by rw [← h, hkw])), ih]
    · rw [if_neg hkw, lookupKey, lookupKey]
      by_cases hk2 : kw.1 = k'
      · rw [if_pos hk2, if_pos hk2]
      · rw [if_neg hk2, if_neg hk2, ih]

theorem lookupKey_map_replace_self (rest : List (String × ExtMeta))
    (k : String) (v : ExtMeta) (hmem : (lookupKey rest k).isSome) :
    lookupKey (rest.map (fun kv => if kv.1 = k then (k, v) else kv)) k =
      some v := by
  induction rest with
  | nil => simp [lookupKey] at hmem
  | cons kw tail ih =>
    rw [List.map_cons]
    by_cases hkw : kw.1 = k
    · rw [if_pos hkw, lookupKey, if_pos rfl]
    · rw [if_neg hkw, lookupKey, if_neg hkw]
      rw [lookupKey, if_neg hkw] at hmem
      exact ih hmem

theorem lookupKey_append_single (prefs : List (String × ExtMeta))
    (k : String) (v : ExtMeta) (k' : String)
    (hmem : lookupKey prefs k = none) :
    lookupKey (prefs ++ [(k, v)]) k' =
      if k' = k then some v else lookupKey prefs k' := by
  induction prefs with
  | nil =>
    rw [List.nil_append, lookupKey, lookupKey]
    by_cases hk' : k' = k
    · rw [if_pos (by rw [hk']), if_pos hk']
    · rw [if_neg (fun h => hk' h.symm), if_neg hk']
      rfl
  | cons kw tail ih =>
    rw [lookupKey] at hmem
    by_cases hkw : kw.1 = k
    · rw [if_pos hkw] at hmem
      exact absurd hmem (by simp)
    · rw [if_neg hkw] at hmem
      rw [List.cons_append, lookupKey, lookupKey]
      by_cases hk2 : kw.1 = k'
      · rw [if_pos hk2, if_pos hk2, if_neg (fun h => hkw (by rw [hk2, h]))]
      · rw [if_neg hk2, if_neg hk2, ih hmem]

theorem lookupKey_filter_keep (prefs : List (String × ExtMeta))
    (ids : List String) (k : String) (hk : k ∉ ids) :
    lookupKey (prefs.filter (fun kv => decide (kv.1 ∉ ids))) k =
      lookupKey prefs k := by
  induction prefs with
  | nil => rfl
  | cons kv rest ih =>
    by_cases hkv : kv.1 ∈ ids
    · have hne : kv.1 ≠ k := fun h => hk (h ▸ hkv)
      rw [List.filter_cons, if_neg (by simp [hkv]), ih,
        show lookupKey (kv :: rest) k = lookupKey rest k from by
          rw [lookupKey, if_neg hne]]
    · rw [List.filter_cons, if_pos (by simp [hkv]), lookupKey, lookupKey]
      by_cases hkk : kv.1 = k
      · rw [if_pos hkk, if_pos hkk]
      · rw [if_neg hkk, if_neg hkk, ih]

theorem diffStep_foldl (exts : List String) (tr ti : List String)
    (htr : tr.Nodup)
    (hnb : (exts.map basename).Nodup)
    (hti : ∀ p ∈ exts, p ∉ ti) :
    exts.foldl diffStep (tr, ti) =
      (tr.filter (fun n => decide (n ∉ exts.map basename)),
       ti ++ exts.filter (fun p => decide (basename p ∉ tr))) := by
  induction exts generalizing tr ti with
  | nil => simp
  | cons p rest ih =>
    rw [List.map_cons, List.nodup_cons] at hnb
    obtain ⟨hbp, hnb'⟩ := hnb
    rw [List.foldl_cons]
    by_cases hmem : basename p ∈ tr
    · rw [show diffStep (tr, ti) p = (tr.erase (basename p), ti) from
        if_pos hmem]
      rw [ih (tr.erase (basename p)) ti (htr.erase (basename p)) hnb'
        (fun q hq => hti q (List.mem_cons_of_mem p hq))]
      rw [Prod.mk.injEq]
      constructor
      · rw [htr.erase_eq_filter (basename p), List.filter_filter]
        apply List.filter_congr
        intro a _
        by_cases hab : a = basename p <;>
          simp [hab, List.mem_cons, not_or, Bool.and_comm]
      · rw [List.filter_cons, if_neg (by simp [hmem])]
        congr 1
        apply List.filter_congr
        intro q hq
        have hqp : basename q ≠ basename p := by
          intro h
          exact hbp (h ▸ List.mem_map_of_mem basename hq)
        have : (basename q ∈ tr.erase (basename p)) ↔ basename q ∈ tr := by
          rw [htr.mem_erase_iff]
          exact and_iff_right hqp
        simp [this]
    · rw [show diffStep (tr, ti) p =
          (tr, ti ++ [p]) from by
        rw [diffStep]
        rw [if_neg hmem, if_neg (hti p (List.mem_cons_self p rest))]]
      have hpr : p ∉ rest := by
        intro h
        exact hbp (List.mem_map_of_mem basename h)
      rw [ih tr (ti ++ [p]) htr hnb' ?hti']
      case hti' =>
        intro q hq
        rw [List.mem_append]
        rintro (h | h)
        · exact hti q (List.mem_cons_of_mem p hq) h
        · rw [List.mem_singleton] at h
          exact hpr (h ▸ hq)
      rw [Prod.mk.injEq]
      constructor
      · apply List.filter_congr
        intro a ha
        have hap : a ≠ basename p := fun h => hmem (h ▸ ha)
        simp [List.mem_cons, not_or, hap]
      · rw [List.filter_cons, if_pos (by simp [hmem]), List.append_assoc]
        rfl

theorem computeDiff_spec (installed exts : List String)
    (hnb : (exts.map basename).Nodup) :
    computeDiff installed (some exts) =
      (installed.dedup.filter (fun n => decide (n ∉ exts.map basename)),
       exts.filter (fun p => decide (basename p ∉ installed.dedup))) := by
  show exts.foldl diffStep (installed.dedup, []) = _
  rw [diffStep_foldl exts installed.dedup [] installed.nodup_dedup hnb
    (by simp), List.nil_append]

theorem lookupKey_dictInsert (prefs : List (String × ExtMeta)) (k : String)
    (v : ExtMeta) (k' : String) :
    lookupKey (dictInsert prefs k v) k' =
      if k' = k then some v else lookupKey prefs k' := by
  unfold dictInsert
  by_cases hmem : (lookupKey prefs k).isSome
  · rw [if_pos hmem]
    by_cases hk' : k' = k
    · subst hk'
      rw [if_pos rfl]
      exact lookupKey_map_replace_self prefs k' v hmem
    · rw [if_neg hk']
      exact lookupKey_map_replace prefs k v k' hk'
  · rw [if_neg hmem]
    exact lookupKey_append_single prefs k v k'
      (Option.not_isSome_iff_eq_none.mp hmem)

theorem removeAll_spec (names files : List String)
    (prefs : List (String × ExtMeta))
    (hkeys : ∀ n ∈ names,
      (lookupKey prefs (extension_id_from_file_path n)).isSome)
    (hids : (names.map extension_id_from_file_path).Nodup) :
    names.foldlM removeOne (files, prefs) =
      Except.ok
        (names.foldl (fun fs n => if n ∈ fs then fs.erase n else fs) files,
         prefs.filter (fun kv =>
           decide (kv.1 ∉ names.map extension_id_from_file_path))) := by
  induction names generalizing files prefs with
  | nil =>
    rw [List.foldlM_nil, List.foldl_nil]
    have : prefs.filter (fun kv =>
        decide (kv.1 ∉ List.map extension_id_from_file_path [])) = prefs := by
      apply List.filter_eq_self.mpr
      intro kv _
      simp
    rw [this]
    rfl
  | cons n ns ih =>
    rw [List.map_cons, List.nodup_cons] at hids
    obtain ⟨hn, hids'⟩ := hids
    have hrem : removeOne (files, prefs) n =
        Except.ok
          ((if n ∈ files then files.erase n else files),
           prefs.filter
             (fun kv => kv.1 ≠ extension_id_from_file_path n)) := by
      simp only [removeOne]
      rw [if_pos (hkeys n (List.mem_cons_self n ns))]
    rw [List.foldlM_cons, hrem]
    show List.foldlM removeOne
        ((if n ∈ files then files.erase n else files),
         prefs.filter (fun kv => kv.1 ≠ extension_id_from_file_path n)) ns = _
    rw [ih (if n ∈ files then files.erase n else files)
      (prefs.filter (fun kv => kv.1 ≠ extension_id_from_file_path n))
      ?keys' hids']
    case keys' =>
      intro m hm
      have hne : extension_id_from_file_path m ≠ extension_id_from_file_path n := by
        intro h
        exact hn (h ▸ List.mem_map_of_mem extension_id_from_file_path hm)
      rw [lookupKey_filter_ne _ _ _ hne]
      exact hkeys m (List.mem_cons_of_mem n hm)
    rw [List.foldl_cons, List.filter_filter]
    congr 1
    rw [Prod.mk.injEq]
    refine ⟨rfl, ?_⟩
    apply List.filter_congr
    intro kv _
    by_cases hkv : kv.1 = extension_id_from_file_path n <;>
      simp [hkv, List.mem_cons, not_or, Bool.and_comm]

theorem installAll_fst (paths : List String) (fs : List String)
    (ps : List (String × ExtMeta)) :
    (paths.foldl installOne (fs, ps)).1 =
      paths.foldl
        (fun acc p => if basename p ∈ acc then acc else acc ++ [basename p])
        fs := by
  induction paths generalizing fs ps with
  | nil => rfl
  | cons p rest ih =>
    rw [List.foldl_cons, List.foldl_cons]
    exact ih _ _

theorem installAll_snd (paths : List String) (fs : List String)
    (ps : List (String × ExtMeta)) :
    (paths.foldl installOne (fs, ps)).2 =
      paths.foldl
        (fun acc p =>
          dictInsert acc (extension_id_from_file_path (basename p))
            defaultExtMeta)
        ps := by
  induction paths generalizing fs ps with
  | nil => rfl
  | cons p rest ih =>
    rw [List.foldl_cons, List.foldl_cons]
    exact ih _ _

theorem mem_eraseAll (names : List String) (fs : List String)
    (hfs : fs.Nodup) (a : String) :
    a ∈ names.foldl (fun acc n => if n ∈ acc then acc.erase n else acc) fs ↔
      (a ∈ fs ∧ a ∉ names) := by
  induction names generalizing fs with
  | nil => simp
  | cons n ns ih =>
    rw [List.foldl_cons]
    by_cases hn : n ∈ fs
    · rw [if_pos hn, ih (fs.erase n) (hfs.erase n)]
      rw [hfs.mem_erase_iff]
      constructor
      · rintro ⟨⟨hne, hmem⟩, hnot⟩
        exact ⟨hmem, by simp [List.mem_cons, not_or, hne, hnot]⟩
      · rintro ⟨hmem, hnot⟩
        rw [List.mem_cons, not_or] at hnot
        exact ⟨⟨hnot.1, hmem⟩, hnot.2⟩
    · rw [if_neg hn, ih fs hfs]
      constructor
      · rintro ⟨hmem, hnot⟩
        refine ⟨hmem, ?_⟩
        rw [List.mem_cons, not_or]
        exact ⟨fun h => hn (h ▸ hmem), hnot⟩
      · rintro ⟨hmem, hnot⟩
        rw [List.mem_cons, not_or] at hnot
        exact ⟨hmem, hnot.2⟩

theorem nodup_eraseAll (names : List String) (fs : List String)
    (hfs : fs.Nodup) :
    (names.foldl (fun acc n => if n ∈ acc then acc.erase n else acc)
      fs).Nodup := by
  induction names generalizing fs with
  | nil => exact hfs
  | cons n ns ih =>
    rw [List.foldl_cons]
    by_cases hn : n ∈ fs
    · rw [if_pos hn]
      exact ih (fs.erase n) (hfs.erase n)
    · rw [if_neg hn]
      exact ih fs hfs

theorem mem_appendAll (paths : List String) (fs : List String) (a : String) :
    a ∈ paths.foldl
        (fun acc p => if basename p ∈ acc then acc else acc ++ [basename p])
        fs ↔
      (a ∈ fs ∨ a ∈ paths.map basename) := by
  induction paths generalizing fs with
  | nil => simp
  | cons p rest ih =>
    rw [List.foldl_cons]
    by_cases hp : basename p ∈ fs
    · rw [if_pos hp, ih fs, List.map_cons, List.mem_cons]
      constructor
      · rintro (h | h)
        · exact Or.inl h
        · exact Or.inr (Or.inr h)
      · rintro (h | h | h)
        · exact Or.inl h
        · exact Or.inl (h ▸ hp)
        · exact Or.inr h
    · rw [if_neg hp, ih (fs ++ [basename p]), List.map_cons, List.mem_cons]
      rw [List.mem_append, List.mem_singleton]
      tauto

theorem lookupKey_installAll (paths : List String)
    (ps : List (String × ExtMeta)) (k : String) :
    lookupKey
        (paths.foldl
          (fun acc p =>
            dictInsert acc (extension_id_from_file_path (basename p))
              defaultExtMeta)
          ps) k =
      if k ∈ paths.map (fun p => extension_id_from_file_path (basename p))
      then some defaultExtMeta
      else lookupKey ps k := by
  induction paths generalizing ps with
  | nil => simp
  | cons p rest ih =>
    rw [List.foldl_cons, ih, List.map_cons]
    by_cases hk : k ∈ rest.map (fun p => extension_id_from_file_path (basename p))
    · rw [if_pos hk, if_pos (List.mem_cons_of_mem _ hk)]
    · rw [if_neg hk, lookupKey_dictInsert]
      by_cases hkp : k = extension_id_from_file_path (basename p)
      · rw [if_pos hkp, if_pos (by rw [List.mem_cons]; exact Or.inl hkp)]
      · rw [if_neg hkp, if_neg (by
          rw [List.mem_cons, not_or]
          exact ⟨hkp, hk⟩)]

/-- C4: extension reconciliation computes
`toRemove = installedExtensions − declared basenames` and
`toInstall = declared paths whose basename is not installed`; it
removes each `toRemove` entry's file and metadata entry, installs
each `toInstall` entry's file and metadata entry, leaves extensions
present in both sets untouched, and sets
`instance.installed_extensions` to exactly the declared basenames.
Hypotheses: the metadata file exists, the listings are
duplicate-free, every extension to be removed has a metadata entry,
and the id derivation does not collide on the names involved. -/
theorem install_extensions_reconciles
    (exts installed : List String) (st : ExtState)
    (prefs : List (String × ExtMeta))
    (hp : st.extPrefs = some prefs)
    (hfiles : st.extFiles.Nodup)
    (hinst : installed.Nodup)
    (hnb : (exts.map basename).Nodup)
    (hkeys : ∀ n ∈ installed, n ∉ exts.map basename →
      (lookupKey prefs (extension_id_from_file_path n)).isSome)
    (hinj : ∀ m ∈ installed ++ exts.map basename,
      ∀ n ∈ installed ++ exts.map basename,
      extension_id_from_file_path m = extension_id_from_file_path n → m = n) :
    ∃ res,
      install_extensions (some exts) installed st = Except.ok res ∧
      res.installedExtensions = exts.map basename ∧
      (∀ name, name ∈ res.state.extFiles ↔
        ((name ∈ st.extFiles ∧
            name ∉ installed.filter (fun n => decide (n ∉ exts.map basename))) ∨
          name ∈ (exts.filter (fun p => decide (basename p ∉ installed))).map
            basename)) ∧
      ∃ prefs2, res.state.extPrefs = some prefs2 ∧
        (∀ n ∈ installed.filter (fun n => decide (n ∉ exts.map basename)),
          lookupKey prefs2 (extension_id_from_file_path n) = none) ∧
        (∀ p ∈ exts.filter (fun p => decide (basename p ∉ installed)),
          lookupKey prefs2 (extension_id_from_file_path (basename p)) =
            some defaultExtMeta) ∧
        (∀ k,
          k ∉ (installed.filter (fun n => decide (n ∉ exts.map basename))).map
            extension_id_from_file_path →
          k ∉ (exts.filter (fun p => decide (basename p ∉ installed))).map
            (fun p => extension_id_from_file_path (basename p)) →
          lookupKey prefs2 k = lookupKey prefs k) := by
  obtain ⟨files0, prefsOpt⟩ := st
  have hp' : prefsOpt = some prefs := hp
  subst hp'
  have hfiles0 : files0.Nodup := hfiles
  have hdedup : installed.dedup = installed := List.dedup_eq_self.mpr hinst
  have hdiff := computeDiff_spec installed exts hnb
  rw [hdedup] at hdiff
  have hmemR : ∀ n,
      n ∈ installed.filter (fun n => decide (n ∉ exts.map basename)) →
      n ∈ installed ∧ n ∉ exts.map basename := by
    intro n hn
    rw [List.mem_filter] at hn
    exact ⟨hn.1, of_decide_eq_true hn.2⟩
  have hmemI : ∀ p,
      p ∈ exts.filter (fun p => decide (basename p ∉ installed)) →
      p ∈ exts ∧ basename p ∉ installed := by
    intro p hpm
    rw [List.mem_filter] at hpm
    exact ⟨hpm.1, of_decide_eq_true hpm.2⟩
  have hdisj : ∀ n ∈ installed.filter (fun n => decide (n ∉ exts.map basename)),
      ∀ p ∈ exts.filter (fun p => decide (basename p ∉ installed)),
      extension_id_from_file_path n ≠
        extension_id_from_file_path (basename p) := by
    intro n hn p hpm h
    obtain ⟨hn1, hn2⟩ := hmemR n hn
    obtain ⟨hp1, _⟩ := hmemI p hpm
    have hnp : n = basename p :=
      hinj n (List.mem_append_left _ hn1) (basename p)
        (List.mem_append_right _ (List.mem_map_of_mem basename hp1)) h
    exact hn2 (hnp ▸ List.mem_map_of_mem basename hp1)
  have hkeys' : ∀ n ∈ installed.filter (fun n => decide (n ∉ exts.map basename)),
      (lookupKey prefs (extension_id_from_file_path n)).isSome := by
    intro n hn
    obtain ⟨h1, h2⟩ := hmemR n hn
    exact hkeys n h1 h2
  have hidsR : ((installed.filter
      (fun n => decide (n ∉ exts.map basename))).map
      extension_id_from_file_path).Nodup := by
    refine List.Nodup.map_on ?_ (hinst.filter _)
    intro m hm n hn h
    exact hinj m (List.mem_append_left _ (hmemR m hm).1)
      n (List.mem_append_left _ (hmemR n hn).1) h
  have hremspec := removeAll_spec
    (installed.filter (fun n => decide (n ∉ exts.map basename))) files0 prefs
    hkeys' hidsR
  have hrun : install_extensions (some exts) installed ⟨files0, some prefs⟩ =
      Except.ok
        { state :=
            { extFiles :=
                (exts.filter (fun p => decide (basename p ∉ installed))).foldl
                  (fun acc p => if basename p ∈ acc then acc
                    else acc ++ [basename p])
                  ((installed.filter
                    (fun n => decide (n ∉ exts.map basename))).foldl
                    (fun acc n => if n ∈ acc then acc.erase n else acc) files0)
              extPrefs := some
                ((exts.filter (fun p => decide (basename p ∉ installed))).foldl
                  (fun acc p =>
                    dictInsert acc (extension_id_from_file_path (basename p))
                      defaultExtMeta)
                  (prefs.filter (fun kv => decide (kv.1 ∉
                    (installed.filter
                      (fun n => decide (n ∉ exts.map basename))).map
                      extension_id_from_file_path)))) }
          installedExtensions := exts.map basename
          helperInvoked := decide (0 <
            (installed.filter
              (fun n => decide (n ∉ exts.map basename))).length +
            (exts.filter (fun p => decide (basename p ∉ installed))).length) } := by
    simp only [install_extensions, hdiff, hremspec]
    rw [installAll_fst, installAll_snd]
  refine ⟨_, hrun, rfl, ?_, ?_⟩
  · intro name
    dsimp only
    rw [mem_appendAll, mem_eraseAll _ _ hfiles0]
  · refine ⟨_, rfl, ?_, ?_, ?_⟩
    · intro n hn
      rw [lookupKey_installAll, if_neg ?_]
      · exact lookupKey_filter_not_mem _ _ _
          (List.mem_map_of_mem extension_id_from_file_path hn)
      · intro hc
        obtain ⟨p, hpm, hpe⟩ := List.mem_map.mp hc
        exact hdisj n hn p hpm hpe.symm
    · intro p hpm
      rw [lookupKey_installAll,
        if_pos (List.mem_map_of_mem
          (fun p => extension_id_from_file_path (basename p)) hpm)]
    · intro k hk1 hk2
      rw [lookupKey_installAll, if_neg hk2]
      exact lookupKey_filter_keep prefs _ k hk1

/-- Witness for C4 at the spec's concrete example: installed set
A,B (files "a.xpi", "b.xpi"), declared set B,C (paths "exts/b.xpi",
"exts/c.xpi").  Reconciliation yields installed set exactly B,C:
A's file and metadata entry removed, C's file and metadata entry
added, B untouched. -/
theorem install_extensions_reconciles_witness :
    ∃ res,
      install_extensions (some ["exts/b.xpi", "exts/c.xpi"])
          ["a.xpi", "b.xpi"]
          ⟨["a.xpi", "b.xpi"],
            some [("a", defaultExtMeta), ("b", defaultExtMeta)]⟩ =
        Except.ok res ∧
      res.installedExtensions =
        List.map basename ["exts/b.xpi", "exts/c.xpi"] ∧
      (∀ name, name ∈ res.state.extFiles ↔
        ((name ∈ (⟨["a.xpi", "b.xpi"],
              some [("a", defaultExtMeta), ("b", defaultExtMeta)]⟩ :
              ExtState).extFiles ∧
            name ∉ List.filter
              (fun n => decide
                (n ∉ List.map basename ["exts/b.xpi", "exts/c.xpi"]))
              ["a.xpi", "b.xpi"]) ∨
          name ∈ (List.filter
            (fun p => decide (basename p ∉ ["a.xpi", "b.xpi"]))
            ["exts/b.xpi", "exts/c.xpi"]).map basename)) ∧
      ∃ prefs2, res.state.extPrefs = some prefs2 ∧
        (∀ n ∈ List.filter
            (fun n => decide
              (n ∉ List.map basename ["exts/b.xpi", "exts/c.xpi"]))
            ["a.xpi", "b.xpi"],
          lookupKey prefs2 (extension_id_from_file_path n) = none) ∧
        (∀ p ∈ List.filter
            (fun p => decide (basename p ∉ ["a.xpi", "b.xpi"]))
            ["exts/b.xpi", "exts/c.xpi"],
          lookupKey prefs2 (extension_id_from_file_path (basename p)) =
            some defaultExtMeta) ∧
        (∀ k,
          k ∉ (List.filter
            (fun n => decide
              (n ∉ List.map basename ["exts/b.xpi", "exts/c.xpi"]))
            ["a.xpi", "b.xpi"]).map extension_id_from_file_path →
          k ∉ (List.filter
            (fun p => decide (basename p ∉ ["a.xpi", "b.xpi"]))
            ["exts/b.xpi", "exts/c.xpi"]).map
            (fun p => extension_id_from_file_path (basename p)) →
          lookupKey prefs2 k =
            lookupKey [("a", defaultExtMeta), ("b", defaultExtMeta)] k) :=
  install_extensions_reconciles ["exts/b.xpi", "exts/c.xpi"]
    ["a.xpi", "b.xpi"]
    ⟨["a.xpi", "b.xpi"], some [("a", defaultExtMeta), ("b", defaultExtMeta)]⟩
    [("a", defaultExtMeta), ("b", defaultExtMeta)]
    rfl (by decide) (by decide) (by decide) (by decide) (by decide)

/-- Witness for C9's amended statement: with instances enumerated as
older-in-use, then the tied pair, the first tied free instance is
selected. -/
theorem find_best_multiple_first_minimal_witness :
    find_best_instance_for_start (fun p => p == 3) "fresh" 9
        ⟨"p1", "work", ProfileInstantiation.multiple, ⟨none, none⟩⟩
        ([⟨"c", "p1", 1, some 3, []⟩] ++
          ⟨"a", "p1", 5, none, []⟩ :: [⟨"b", "p1", 5, none, []⟩]) =
      Except.ok ⟨"a", "p1", 5, none, []⟩ :=
  find_best_multiple_first_minimal (fun p => p == 3) "fresh" 9
    ⟨"p1", "work", ProfileInstantiation.multiple, ⟨none, none⟩⟩
    [⟨"c", "p1", 1, some 3, []⟩] [⟨"b", "p1", 5, none, []⟩]
    ⟨"a", "p1", 5, none, []⟩ rfl (by decide) (by decide) (by decide)

/-- C6: extension reconciliation is idempotent: when the installed
set already equals the declared basename set, the computed
`to_remove` and `to_install` are both empty, no extension file or
metadata entry changes, `installed_extensions` is rewritten to the
same basename set, and the helper browser invocation is not
triggered (the combined change count is zero). -/
theorem install_extensions_idempotent
    (exts installed : List String) (st : ExtState)
    (prefs : List (String × ExtMeta))
    (hp : st.extPrefs = some prefs)
    (hnb : (exts.map basename).Nodup)
    (heq1 : ∀ n ∈ installed, n ∈ exts.map basename)
    (heq2 : ∀ n ∈ exts.map basename, n ∈ installed) :
    computeDiff installed (some exts) = ([], []) ∧
    install_extensions (some exts) installed st =
      Except.ok
        { state := { extFiles := st.extFiles, extPrefs := some prefs }
          installedExtensions := exts.map basename
          helperInvoked := false } := by
  have hdiff := computeDiff_spec installed exts hnb
  have h1 : installed.dedup.filter
      (fun n => decide (n ∉ exts.map basename)) = [] := by
    rw [List.filter_eq_nil_iff]
    intro a ha
    rw [List.mem_dedup] at ha
    simp [heq1 a ha]
  have h2 : exts.filter
      (fun p => decide (basename p ∉ installed.dedup)) = [] := by
    rw [List.filter_eq_nil_iff]
    intro p hpm
    have hbp : basename p ∈ installed :=
      heq2 (basename p) (List.mem_map_of_mem basename hpm)
    simp [List.mem_dedup, hbp]
  rw [h1, h2] at hdiff
  refine ⟨hdiff, ?_⟩
  obtain ⟨files0, prefsOpt⟩ := st
  have hp' : prefsOpt = some prefs := hp
  subst hp'
  simp only [install_extensions, hdiff]
  rfl

/-- Witness for C6: installed set "b.xpi" equal to the basenames of
the declared list; the run changes nothing and skips the helper
invocation. -/
theorem install_extensions_idempotent_witness :
    computeDiff ["b.xpi"] (some ["exts/b.xpi"]) = ([], []) ∧
    install_extensions (some ["exts/b.xpi"]) ["b.xpi"]
        ⟨["b.xpi"], some [("b", defaultExtMeta)]⟩ =
      Except.ok
        { state := { extFiles := ["b.xpi"],
                     extPrefs := some [("b", defaultExtMeta)] }
          installedExtensions := List.map basename ["exts/b.xpi"]
          helperInvoked := false } :=
  install_extensions_idempotent ["exts/b.xpi"] ["b.xpi"]
    ⟨["b.xpi"], some [("b", defaultExtMeta)]⟩ [("b", defaultExtMeta)]
    rfl (by decide) (by decide) (by decide)

/-- Counterexample for C8: an instance with an applied overrides file
(content "old"), reconciled against a profile that declares no
preferences file but does declare an extension, does NOT end with the
overrides file absent: removing `user.js` is followed by the
append-mode write of the unattended-installation preference, which
re-creates the file. -/
theorem userjs_recreated_when_extensions_declared :
    update_userjs none (some ["exts/a.xpi"]) (some ["old"]) =
      some [autoDisableScopesPref] ∧
    update_userjs none (some ["exts/a.xpi"]) (some ["old"]) ≠ none := by
  constructor <;> simp [update_userjs]

/-- C8 amended: reconciling an instance against a profile
configuration with no declared preferences file ends with the
overrides file absent exactly when the profile declares no (or an
empty) extension list; with a nonempty extension list the file ends
present, containing exactly the unattended-installation preference
line. -/
theorem update_userjs_no_declared_file
    (configExtensions : Option (List String))
    (userjs0 : Option (List String)) :
    update_userjs none configExtensions userjs0 =
      (if 0 < (configExtensions.getD []).length
       then some [autoDisableScopesPref]
       else none) := by
  cases configExtensions with
  | none => rfl
  | some exts =>
    cases exts with
    | nil => rfl
    | cons e rest => simp [update_userjs]

/-- C5: on every exit path of `launch` that passes the claim — apply
(reconciliation) failure, browser launch failure, or successful
browser exit — the `try`/`finally` block writes the instance record
exactly twice: the claim write with `usage_pid = pid`, then the
release write with `usage_pid = None`; the release write is never
skipped and preserves the instance's identity. -/
theorem launch_releases_on_every_exit (alive : Nat → Bool) (pid : Nat)
    (inst : Instance) (applyStep : Instance → List String × Option String)
    (browserStep : Instance → Option String)
    (hfree : instance_in_use alive inst = false) :
    ∃ res w,
      launch alive pid inst applyStep browserStep =
        (res, [{ inst with usagePid := some pid }, w]) ∧
      w.usagePid = none ∧ w.id = inst.id ∧
      (∀ e, (applyStep { inst with usagePid := some pid }).2 = some e →
        res = Except.error e) := by
  simp only [launch]
  rw [if_neg (by simp [hfree])]
  cases happ : (applyStep { inst with usagePid := some pid }).2 with
  | some e =>
    refine ⟨Except.error e,
      { inst with
          usagePid := none
          installedExtensions :=
            (applyStep { inst with usagePid := some pid }).1 }, ?_, rfl, rfl, ?_⟩
    · rfl
    · intro e2 he2
      rw [Option.some.inj he2]
  | none =>
    cases hbr : browserStep { { inst with usagePid := some pid } with
        installedExtensions :=
          (applyStep { inst with usagePid := some pid }).1 } with
    | some e =>
      refine ⟨Except.error e,
        { inst with
            usagePid := none
            installedExtensions :=
              (applyStep { inst with usagePid := some pid }).1 }, ?_, rfl, rfl, ?_⟩
      · rfl
      · intro e2 he2
        exact absurd he2 (by simp)
    | none =>
      refine ⟨Except.ok (),
        { inst with
            usagePid := none
            installedExtensions :=
              (applyStep { inst with usagePid := some pid }).1 }, ?_, rfl, rfl, ?_⟩
      · rfl
      · intro e2 he2
        exact absurd he2 (by simp)

/-- Witness for C5 on the reconciliation-failure path: a free
instance, an apply step that fails with "boom"; the write sequence
still ends with the release write clearing `usage_pid`. -/
theorem launch_releases_on_every_exit_witness :
    ∃ res w,
      launch (fun _ => false) 42 ⟨"a", "p1", 1, none, []⟩
          (fun i => (i.installedExtensions, some "boom"))
          (fun _ => none) =
        (res, [{ (⟨"a", "p1", 1, none, []⟩ : Instance) with
          usagePid := some 42 }, w]) ∧
      w.usagePid = none ∧ w.id = (⟨"a", "p1", 1, none, []⟩ : Instance).id ∧
      (∀ e, ((fun (i : Instance) => (i.installedExtensions, some "boom"))
          { (⟨"a", "p1", 1, none, []⟩ : Instance) with
            usagePid := some 42 }).2 = some e →
        res = Except.error e) :=
  launch_releases_on_every_exit (fun _ => false) 42 ⟨"a", "p1", 1, none, []⟩
    (fun i => (i.installedExtensions, some "boom")) (fun _ => none) rfl

end Multifox
